import Mathlib

/-!
Verification of the calendar bot's text-to-event parser and store reconciler.

The development shallowly embeds `calendar_bot/utils.py` and
`calendar_bot/update_calendar.py`.  Python strings are Lean `String`s, with
the character-level operations the source relies on (`strip`, `split`,
`join`, `startswith`, substring slicing) implemented over `String.data` so
that theorems can reason by list induction.  `datetime.strptime` for the two
literal formats is embedded by translating CPython's `_strptime` patterns
for `%Y %m %d %H %M %S` together with the `datetime` constructor's range
checks.  Fallible code returns `Except ParserError`.

The iCalendar serialization library (`ics`) is an external collaborator and
is modelled at its interface boundary exactly as the specification fixes it:
`load(path)` yields the ordered collection of stored records (empty when the
file is absent) and `save(collection, path)` fully rewrites the file with
that ordered collection.  A `Store` therefore carries the aggregate file as
`Option (List Event)` and the per-event files as a uid-keyed map.
-/

/-- Characters stripped by Python's `str.strip()`. -/
def pyIsSpace (c : Char) : Bool :=
  c = ' ' || c = '\t' || c = '\n' || c = '\r' || c = '\x0b' || c = '\x0c'

/-- Strip leading and trailing Python whitespace from a character list. -/
def trimCh (cs : List Char) : List Char :=
  ((cs.dropWhile pyIsSpace).reverse.dropWhile pyIsSpace).reverse

/-- Python `s.strip()`. -/
def pyStrip (s : String) : String := String.mk (trimCh s.data)

/-- Split a character list at every occurrence of `sep`, keeping empty
pieces, as Python's `str.split` with an explicit separator does. -/
def splitOnCh (sep : Char) : List Char → List (List Char)
  | [] => [[]]
  | c :: cs =>
    let rest := splitOnCh sep cs
    if c = sep then [] :: rest
    else
      match rest with
      | [] => [[c]]
      | p :: ps => (c :: p) :: ps

/-- Python `body.split("\n")`. -/
def pySplitNL (s : String) : List String := (splitOnCh '\n' s.data).map String.mk

/-- Python `"\n".join(pieces)` on character lists. -/
def joinNLCh : List (List Char) → List Char
  | [] => []
  | [l] => l
  | l :: ls => l ++ '\n' :: joinNLCh ls

/-- Python `"\n".join(lines)`. -/
def pyJoinNL (ls : List String) : String := String.mk (joinNLCh (ls.map String.data))

/-- Python `s.startswith(p)`. -/
def pyStartsWith (s p : String) : Bool := p.data.isPrefixOf s.data

/-- Python `"\n" in s`. -/
def pyHasNL (s : String) : Bool := s.data.contains '\n'

/-- Python truthiness of `line.strip()`: true when the line is blank. -/
def pyBlank (s : String) : Bool := (trimCh s.data).isEmpty

/-- Naive datetime as produced by `datetime.strptime` (no timezone). -/
structure DT where
  year : Nat
  month : Nat
  day : Nat
  hour : Nat
  minute : Nat
  second : Nat
deriving DecidableEq, Repr

/-- Numeric value of a decimal digit character. -/
def dval (c : Char) : Nat := c.toNat - '0'.toNat

/-- strptime `%Y`: exactly four decimal digits. -/
def matchY : List Char → Option (Nat × List Char)
  | a :: b :: c :: d :: rest =>
    if a.isDigit && b.isDigit && c.isDigit && d.isDigit then
      some (((dval a * 10 + dval b) * 10 + dval c) * 10 + dval d, rest)
    else none
  | _ => none

/-- strptime `%m`: the pattern `1[0-2]|0[1-9]|[1-9]`, alternatives tried
left to right as CPython's regex does. -/
def matchM : List Char → Option (Nat × List Char)
  | a :: b :: rest =>
    if a = '1' && ('0' ≤ b && b ≤ '2') then some (10 + dval b, rest)
    else if a = '0' && ('1' ≤ b && b ≤ '9') then some (dval b, rest)
    else if '1' ≤ a && a ≤ '9' then some (dval a, b :: rest)
    else none
  | [a] => if '1' ≤ a && a ≤ '9' then some (dval a, []) else none
  | [] => none

/-- strptime `%d`: the pattern `3[01]|[12][0-9]|0[1-9]|[1-9]`. -/
def matchD : List Char → Option (Nat × List Char)
  | a :: b :: rest =>
    if a = '3' && (b = '0' || b = '1') then some (30 + dval b, rest)
    else if (a = '1' || a = '2') && b.isDigit then some (10 * dval a + dval b, rest)
    else if a = '0' && ('1' ≤ b && b ≤ '9') then some (dval b, rest)
    else if '1' ≤ a && a ≤ '9' then some (dval a, b :: rest)
    else none
  | [a] => if '1' ≤ a && a ≤ '9' then some (dval a, []) else none
  | [] => none

/-- strptime `%H`: the pattern `2[0-3]|[0-1][0-9]|[0-9]`. -/
def matchH : List Char → Option (Nat × List Char)
  | a :: b :: rest =>
    if a = '2' && ('0' ≤ b && b ≤ '3') then some (20 + dval b, rest)
    else if (a = '0' || a = '1') && b.isDigit then some (10 * dval a + dval b, rest)
    else if a.isDigit then some (dval a, b :: rest)
    else none
  | [a] => if a.isDigit then some (dval a, []) else none
  | [] => none

/-- strptime `%M` and `%S`: two digits `[0-5][0-9]` or a single digit.
(CPython's `%S` also matches the leap-second texts 60 and 61, which the
`datetime` constructor then rejects; either way the format attempt fails,
so they are folded into the no-match case here.) -/
def matchMS : List Char → Option (Nat × List Char)
  | a :: b :: rest =>
    if ('0' ≤ a && a ≤ '5') && b.isDigit then some (10 * dval a + dval b, rest)
    else if a.isDigit then some (dval a, b :: rest)
    else none
  | [a] => if a.isDigit then some (dval a, []) else none
  | [] => none

/-- Match one literal character of the format string. -/
def matchLit (c : Char) : List Char → Option (List Char)
  | a :: rest => if a = c then some rest else none
  | [] => none

def isLeapYear (y : Nat) : Bool := y % 4 = 0 && (y % 100 ≠ 0 || y % 400 = 0)

def daysInMonth (y m : Nat) : Nat :=
  if m = 2 then (if isLeapYear y then 29 else 28)
  else if m = 4 || m = 6 || m = 9 || m = 11 then 30
  else 31

/-- The `datetime` constructor's validation of a strptime match: the year
must be positive (the patterns already bound it below 10000 and the month
within 1..12), and the day must exist in the month. -/
def validDate (y m d : Nat) : Bool := 1 ≤ y && 1 ≤ d && d ≤ daysInMonth y m

/-- `datetime.strptime(s, "%Y-%m-%d")`: the whole input must be consumed. -/
def parseDateCh (cs : List Char) : Option DT := do
  let (y, cs) ← matchY cs
  let cs ← matchLit '-' cs
  let (m, cs) ← matchM cs
  let cs ← matchLit '-' cs
  let (d, cs) ← matchD cs
  if cs.isEmpty && validDate y m d then some ⟨y, m, d, 0, 0, 0⟩ else none

/-- `datetime.strptime(s, "%Y-%m-%d %H:%M:%S")`. -/
def parseDateTimeCh (cs : List Char) : Option DT := do
  let (y, cs) ← matchY cs
  let cs ← matchLit '-' cs
  let (m, cs) ← matchM cs
  let cs ← matchLit '-' cs
  let (d, cs) ← matchD cs
  let cs ← matchLit ' ' cs
  let (h, cs) ← matchH cs
  let cs ← matchLit ':' cs
  let (mi, cs) ← matchMS cs
  let cs ← matchLit ':' cs
  let (sec, cs) ← matchMS cs
  if cs.isEmpty && validDate y m d then some ⟨y, m, d, h, mi, sec⟩ else none

/-- The validation failures the source raises as `EventFormParserError`
(and, for the issue dialect, the failures §4.3 and §4.1 of the spec name),
as the tagged error type the spec's design notes call for: each constructor
carries the data the corresponding message interpolates. -/
inductive ParserError where
  | invalidTimezone (code : String)
  | missingRequiredField (field : String)
  | nameNotSingleLine
  | locationNotSingleLine
  | couldNotParseTime (text : String)
  | mixedTimeKinds
  | headingAbsent (field : String)
  | blockIncomplete (field : String)
  | notARange (text : String)
deriving DecidableEq, Repr

instance {ε α : Type} [DecidableEq ε] [DecidableEq α] : DecidableEq (Except ε α) := fun x y =>
  match x, y with
  | .error a, .error b =>
    if h : a = b then .isTrue (h ▸ rfl)
    else .isFalse (fun hc => h (Except.error.inj hc))
  | .error _, .ok _ => .isFalse (fun hc => Except.noConfusion hc)
  | .ok _, .error _ => .isFalse (fun hc => Except.noConfusion hc)
  | .ok a, .ok b =>
    if h : a = b then .isTrue (h ▸ rfl)
    else .isFalse (fun hc => h (Except.ok.inj hc))

/-- `utils._parse_time`: strip the input, try `%Y-%m-%d %H:%M:%S` (timed),
then `%Y-%m-%d` (all-day); first match wins; neither match fails naming the
offending text. -/
def _parse_time (time_str : String) : Except ParserError (DT × Bool) :=
  let t := trimCh time_str.data
  match parseDateTimeCh t with
  | some dt => .ok (dt, false)
  | none =>
    match parseDateCh t with
    | some dt => .ok (dt, true)
    | none => .error (.couldNotParseTime (String.mk t))

example : _parse_time "2024-11-30 17:00:00" = .ok (⟨2024, 11, 30, 17, 0, 0⟩, false) := by decide
example : _parse_time " 2024-11-30 " = .ok (⟨2024, 11, 30, 0, 0, 0⟩, true) := by decide
example : _parse_time "2024-02-30" = .error (.couldNotParseTime "2024-02-30") := by decide
example : _parse_time "Nov 30" = .error (.couldNotParseTime "Nov 30") := by decide

/-- Insertion-ordered dictionary update, as CPython's `dict` assignment:
replace the value at an existing key in place, otherwise append. -/
def dictInsert : List (String × String) → String → String → List (String × String)
  | [], k, v => [(k, v)]
  | (k', v') :: rest, k, v =>
    if k' = k then (k, v) :: rest else (k', v') :: dictInsert rest k v

/-- Dictionary lookup (`fields[f]` / `f in fields`). -/
def dictGet? : List (String × String) → String → Option String
  | [], _ => none
  | (k', v') :: rest, k => if k' = k then some v' else dictGet? rest k

/-- Closing a section of the form body: Python's
`if current_field: fields[current_field] = "\n".join(current_content).strip()`.
By truthiness, a `None` or empty current field saves nothing. -/
def saveField (cf : Option String) (cc : List String)
    (fields : List (String × String)) : List (String × String) :=
  match cf with
  | some f => if f ≠ "" then dictInsert fields f (pyStrip (pyJoinNL cc)) else fields
  | none => fields

/-- The line loop of `make_event_from_github_discussion_body`: a line
beginning with `"### "` closes the current section and starts one named by
the stripped trailing text; otherwise a non-blank line is accumulated when
the current field is truthy. -/
def fieldsLoop : List String → Option String → List String →
    List (String × String) → List (String × String)
  | [], cf, cc, fields => saveField cf cc fields
  | line :: rest, cf, cc, fields =>
    if pyStartsWith line "### " then
      fieldsLoop rest (some (pyStrip (String.mk (line.data.drop 4)))) []
        (saveField cf cc fields)
    else if (match cf with | some f => f ≠ "" | none => false) && !(pyBlank line) then
      fieldsLoop rest cf (cc ++ [line]) fields
    else
      fieldsLoop rest cf cc fields

/-- Field extraction from the body's lines (the loop started on
`body.strip().split("\n")` with no current field). -/
def extractFields (lines : List String) : List (String × String) :=
  fieldsLoop lines none [] []

def required_fields : List String :=
  ["Event Name", "Event Description", "Start Time", "End Time", "Location"]

/-- Python `field not in fields or not fields[field]`. -/
def fieldMissing (fields : List (String × String)) (f : String) : Bool :=
  match dictGet? fields f with
  | none => true
  | some v => v = ""

/-- The first required field the validation loop raises on, if any. -/
def firstMissing (fields : List (String × String)) : Option String :=
  required_fields.find? (fieldMissing fields)

/-- `utils._parse_event_name`: reject an internal line break. -/
def _parse_event_name (name_str : String) : Except ParserError String :=
  if pyHasNL name_str then .error .nameNotSingleLine else .ok name_str

/-- `utils._parse_event_description`: strip, drop every line that starts
with a fence marker, re-join and strip. -/
def _parse_event_description (desc_str : String) : String :=
  pyStrip (pyJoinNL ((pySplitNL (pyStrip desc_str)).filter
    (fun l => !(pyStartsWith l "```"))))

/-- `utils._parse_location`: reject an internal line break. -/
def _parse_location (loc_str : String) : Except ParserError String :=
  if pyHasNL loc_str then .error .locationNotSingleLine else .ok loc_str

/-- The external IANA zone database (`zoneinfo.ZoneInfo`), modelled at its
interface boundary: construction succeeds exactly on known zone names, and
only membership matters to the core. -/
def zoneinfoNames : List String :=
  ["Europe/Zurich", "UTC", "America/New_York", "Asia/Tokyo"]

def ZoneInfo? (code : String) : Option String :=
  if code ∈ zoneinfoNames then some code else none

/-- A begin or end instant of an event: the naive strptime value plus the
optionally attached IANA zone (`dt.replace(tzinfo=...)`). -/
structure ZonedDT where
  dt : DT
  tz : Option String
deriving DecidableEq, Repr

/-- The `ics.Event` fields the core reads and writes.  `end_` stands for
the source's `end` attribute (`end` is a Lean keyword); `all_day` records
whether `make_all_day()` was called on the record. -/
structure Event where
  uid : String
  name : String
  description : String
  location : String
  begin : ZonedDT
  end_ : ZonedDT
  all_day : Bool
deriving DecidableEq, Repr

/-- `make_event_from_github_discussion_body` after the timezone has been
resolved and the body split into lines; factored out so that theorems can
quantify over line lists. -/
def makeEventCore (event_uid : String) (lines : List String) (tzinfo : String) :
    Except ParserError Event := do
  let fields := extractFields lines
  match firstMissing fields with
  | some f => throw (.missingRequiredField f)
  | none => do
    let name ← _parse_event_name ((dictGet? fields "Event Name").getD "")
    let description := _parse_event_description
      ((dictGet? fields "Event Description").getD "")
    let location ← _parse_location ((dictGet? fields "Location").getD "")
    let (start_dt, start_is_all_day) ←
      _parse_time ((dictGet? fields "Start Time").getD "")
    let (end_dt, end_is_all_day) ←
      _parse_time ((dictGet? fields "End Time").getD "")
    if start_is_all_day ≠ end_is_all_day then
      throw .mixedTimeKinds
    else if start_is_all_day then
      pure ⟨event_uid, name, description, location,
        ⟨start_dt, none⟩, ⟨end_dt, none⟩, true⟩
    else
      pure ⟨event_uid, name, description, location,
        ⟨start_dt, some tzinfo⟩, ⟨end_dt, some tzinfo⟩, false⟩

/-- `utils.make_event_from_github_discussion_body`: resolve the timezone
first (an invalid IANA code fails before any parsing), then parse the
form-style body. -/
def make_event_from_github_discussion_body (event_uid body : String)
    (timezone_ianacode : String := "Europe/Zurich") : Except ParserError Event :=
  match ZoneInfo? timezone_ianacode with
  | none => .error (.invalidTimezone timezone_ianacode)
  | some tzinfo => makeEventCore event_uid (pySplitNL (pyStrip body)) tzinfo

/-- `utils.are_events_identical`: name, description, begin, end and
location compare equal; the uid is excluded. -/
def are_events_identical (event1 event2 : Event) : Bool :=
  event1.name == event2.name && event1.description == event2.description &&
  event1.begin == event2.begin && event1.end_ == event2.end_ &&
  event1.location == event2.location

/-- The two persisted artifacts owned by the store reconciler: the
aggregate calendar file (`none` when absent) and the
`individual_events/<uid>.ics` files, keyed by uid.  Each file holds the
ordered event collection that `write_events_to_calendar` serialized into
it, per the load/save interface the spec fixes for the external calendar
library. -/
structure Store where
  aggregate : Option (List Event)
  individual : List (String × List Event)
deriving DecidableEq, Repr

/-- `utils.load_events_from_calendar_file`: an absent file is an empty
collection, not an error. -/
def load_events_from_calendar_file (file : Option (List Event)) : List Event :=
  file.getD []

/-- File-map update performed by `write_events_to_calendar` on an
individual event file (unconditional overwrite). -/
def filesInsert : List (String × List Event) → String → List Event →
    List (String × List Event)
  | [], k, v => [(k, v)]
  | (k', v') :: rest, k, v =>
    if k' = k then (k, v) :: rest else (k', v') :: filesInsert rest k v

/-- Existence test for an individual event file. -/
def filesGet? : List (String × List Event) → String → Option (List Event)
  | [], _ => none
  | (k', v') :: rest, k => if k' = k then some v' else filesGet? rest k

/-- File deletion (`Path.unlink`). -/
def filesErase : List (String × List Event) → String → List (String × List Event)
  | [], _ => []
  | (k', v') :: rest, k =>
    if k' = k then filesErase rest k else (k', v') :: filesErase rest k

/-- The enumerate-and-break scan of `process_discussion`: index and record
of the first event whose uid matches. -/
def findFirstWithUid (events : List Event) (event_uid : String) :
    Option (Nat × Event) :=
  match events with
  | [] => none
  | e :: es =>
    if e.uid == event_uid then some (0, e)
    else (findFirstWithUid es event_uid).map (fun p => (p.1 + 1, p.2))

/-- `update_calendar.process_discussion` acting on the modelled store.  A
parser error propagates before any file is read or written, so the store
comes back untouched in that case. -/
def process_discussion (discussion_number body : String) (st : Store) :
    Except ParserError (Event × Bool) × Store :=
  let event_uid := "ghdiscussion_" ++ discussion_number
  match make_event_from_github_discussion_body event_uid body with
  | .error e => (.error e, st)
  | .ok new_event =>
    let all_events := load_events_from_calendar_file st.aggregate
    match findFirstWithUid all_events event_uid with
    | some (i, existing) =>
      if are_events_identical existing new_event then
        (.ok (new_event, false), st)
      else
        (.ok (new_event, true),
          ⟨some (all_events.set i new_event),
            filesInsert st.individual event_uid [new_event]⟩)
    | none =>
      (.ok (new_event, true),
        ⟨some (new_event :: all_events),
          filesInsert st.individual event_uid [new_event]⟩)

/-- `update_calendar.delete_discussion` acting on the modelled store. -/
def delete_discussion (discussion_number : String) (st : Store) : Bool × Store :=
  let event_uid := "ghdiscussion_" ++ discussion_number
  let step1 :=
    match filesGet? st.individual event_uid with
    | some _ => (true, filesErase st.individual event_uid)
    | none => (false, st.individual)
  match st.aggregate with
  | none => (step1.1, ⟨none, step1.2⟩)
  | some all_events =>
    let filtered_events := all_events.filter (fun e => e.uid != event_uid)
    if filtered_events.length < all_events.length then
      (true, ⟨some filtered_events, step1.2⟩)
    else
      (step1.1, ⟨some all_events, step1.2⟩)

/-- A body in the shape of the repository's test fixture. -/
def sampleBody : String :=
  "### Event Name\nHappy Hour\n### Event Description\nJoin us.\n### Start Time\n2024-11-30 17:00:00\n### End Time\n2024-11-30 21:00:00\n### Location\nLobby"

/-- The event `sampleBody` parses to under uid `ghdiscussion_7`. -/
def sampleEvent : Event :=
  ⟨"ghdiscussion_7", "Happy Hour", "Join us.", "Lobby",
    ⟨⟨2024, 11, 30, 17, 0, 0⟩, some "Europe/Zurich"⟩,
    ⟨⟨2024, 11, 30, 21, 0, 0⟩, some "Europe/Zurich"⟩, false⟩

/-- A stored record under the same uid with different content. -/
def sampleEventOld : Event :=
  ⟨"ghdiscussion_7", "Old Name", "Old.", "Hall",
    ⟨⟨2024, 1, 1, 0, 0, 0⟩, none⟩, ⟨⟨2024, 1, 2, 0, 0, 0⟩, none⟩, true⟩

/-- A stored record under an unrelated uid. -/
def otherEvent : Event :=
  ⟨"ghdiscussion_3", "Other", "O.", "Room",
    ⟨⟨2024, 5, 1, 0, 0, 0⟩, none⟩, ⟨⟨2024, 5, 2, 0, 0, 0⟩, none⟩, true⟩

example : make_event_from_github_discussion_body "ghdiscussion_7" sampleBody =
    .ok sampleEvent := by decide

/-- First index at which a predicate holds (the scan-forward searches of
the issue dialect). -/
def findIdxO {α : Type} (p : α → Bool) : List α → Option Nat
  | [] => none
  | x :: xs => if p x then some 0 else (findIdxO p xs).map (· + 1)

/-- Modelled from the spec: the issue-dialect field extractor (§4.3) is not
among the repository's source files under src/.  Per the spec, the exact
heading line for the section name is located, the scan moves forward to the
first two subsequent lines that begin with a fence marker, and the value is
the joined, trimmed text strictly between those two fence lines; a missing
heading, or fewer than two fence lines before the end of the body, is a
failure naming the field and the nature of the failure. -/
def extractIssueSection (lines : List String) (name : String) :
    Except ParserError String :=
  match findIdxO (fun l => l == "### " ++ name) lines with
  | none => .error (.headingAbsent name)
  | some i =>
    let rest := lines.drop (i + 1)
    match findIdxO (fun l => pyStartsWith l "```") rest with
    | none => .error (.blockIncomplete name)
    | some j =>
      let after := rest.drop (j + 1)
      match findIdxO (fun l => pyStartsWith l "```") after with
      | none => .error (.blockIncomplete name)
      | some k => .ok (pyStrip (pyJoinNL (after.take k)))

def lowerCh (cs : List Char) : List Char := cs.map Char.toLower

/-- First index at which the case-insensitive keyword `" to "` occurs. -/
def findToIdx : List Char → Option Nat
  | [] => none
  | c :: cs =>
    if lowerCh ((c :: cs).take 4) = " to ".data then some 0
    else (findToIdx cs).map (· + 1)

/-- Modelled from the spec: range-mode time parsing (§4.1) for the issue
dialect is not among the repository's source files under src/.  Per the
spec, the trimmed text must match the literal pattern `FROM <left> TO
<right>`, case-insensitively on the keywords; each side is parsed with the
same two-format attempt order, and both sides must resolve to the same kind
or parsing fails. -/
def parseTimeRange (time_str : String) : Except ParserError (DT × DT × Bool) :=
  let t := trimCh time_str.data
  if lowerCh (t.take 5) = "from ".data then
    match findToIdx (t.drop 5) with
    | some i => do
      let (left_dt, left_all) ← _parse_time (String.mk ((t.drop 5).take i))
      let (right_dt, right_all) ← _parse_time (String.mk ((t.drop 5).drop (i + 4)))
      if left_all ≠ right_all then throw .mixedTimeKinds
      else pure (left_dt, right_dt, left_all)
    | none => .error (.notARange (String.mk t))
  else .error (.notARange (String.mk t))

example : parseTimeRange "FROM 2024-11-28 TO 2024-11-30" =
    .ok (⟨2024, 11, 28, 0, 0, 0⟩, ⟨2024, 11, 30, 0, 0, 0⟩, true) := by decide
example : parseTimeRange "from 2024-11-28 To 2024-11-30 17:00:00" =
    .error .mixedTimeKinds := by decide
example : parseTimeRange "2024-11-28" = .error (.notARange "2024-11-28") := by decide

/-- The recorded value of a form section: its non-blank lines joined with
single newlines, then trimmed. -/
def sectionValue (content : List String) : String :=
  pyStrip (pyJoinNL (content.filter (fun l => !(pyBlank l))))

/-- Render named sections as a form-dialect body: each section contributes
its heading line followed by its content lines. -/
def renderSections (secs : List (String × List String)) : List String :=
  secs.foldr (fun sec acc => ("### " ++ sec.1) :: (sec.2 ++ acc)) []

/-- The effect one section has on the fields dictionary: a nonempty name
records its value, overwriting an earlier section of the same name; an
empty name records nothing. -/
def recordSection (fields : List (String × String))
    (sec : String × List String) : List (String × String) :=
  if sec.1 ≠ "" then dictInsert fields sec.1 (sectionValue sec.2) else fields

theorem findFirstWithUid_eq_none {l : List Event} {u : String}
    (h : ∀ e ∈ l, e.uid ≠ u) : findFirstWithUid l u = none := by
  induction l with
  | nil => rfl
  | cons e es ih =>
    have he : ¬((e.uid == u) = true) := by
      simp only [beq_iff_eq]
      exact h e (List.mem_cons_self e es)
    simp only [findFirstWithUid, if_neg he,
      ih (fun x hx => h x (List.mem_cons_of_mem _ hx)), Option.map_none']

/-- C9: the timezone identifier is validated before any field extraction or
time parsing — an invalid IANA code fails for every body — and a parsing or
validation failure in process_discussion surfaces before any file is read
or written, so the store comes back with both artifacts unchanged. -/
theorem tz_validated_first_and_failures_leave_store_unchanged :
    (∀ event_uid body tz, ZoneInfo? tz = none →
      make_event_from_github_discussion_body event_uid body tz =
        .error (.invalidTimezone tz)) ∧
    (∀ discussion_number body st e,
      make_event_from_github_discussion_body
        ("ghdiscussion_" ++ discussion_number) body = .error e →
      process_discussion discussion_number body st = (.error e, st)) := by
  constructor
  · intro event_uid body tz h
    simp [make_event_from_github_discussion_body, h]
  · intro discussion_number body st e h
    simp [process_discussion, h]

/-- C9 witness: an unknown zone fails for an arbitrary body, and a body
with no sections fails with the store returned untouched. -/
theorem tz_validated_first_witness :
    make_event_from_github_discussion_body "u" "b" "Mars/Olympus" =
        .error (.invalidTimezone "Mars/Olympus") ∧
      process_discussion "9" "" ⟨some [otherEvent], []⟩ =
        (.error (.missingRequiredField "Event Name"), ⟨some [otherEvent], []⟩) :=
  ⟨tz_validated_first_and_failures_leave_store_unchanged.1 "u" "b" "Mars/Olympus"
      (by decide),
    tz_validated_first_and_failures_leave_store_unchanged.2 "9" "" _ _ (by decide)⟩

/-- C2: when the first aggregate record carrying the identifier is
Event-Equal to the newly built record, process_discussion returns the built
record with the boolean false and performs no write: the store, both
artifacts included, is returned unchanged. -/
theorem process_discussion_unchanged_is_noop
    (discussion_number body : String) (st : Store) (ev ex : Event) (i : Nat)
    (hmk : make_event_from_github_discussion_body
      ("ghdiscussion_" ++ discussion_number) body = .ok ev)
    (hfind : findFirstWithUid (load_events_from_calendar_file st.aggregate)
      ("ghdiscussion_" ++ discussion_number) = some (i, ex))
    (hid : are_events_identical ex ev = true) :
    process_discussion discussion_number body st = (.ok (ev, false), st) := by
  simp [process_discussion, hmk, hfind, hid]

/-- C2 witness: re-upserting the sample body over a store that already
holds its record is a no-op on both artifacts. -/
theorem process_discussion_unchanged_witness :
    process_discussion "7" sampleBody
        ⟨some [sampleEvent], [("ghdiscussion_7", [sampleEvent])]⟩ =
      (.ok (sampleEvent, false),
        ⟨some [sampleEvent], [("ghdiscussion_7", [sampleEvent])]⟩) :=
  process_discussion_unchanged_is_noop "7" sampleBody _ sampleEvent sampleEvent 0
    (by decide) (by decide) (by decide)

/-- C1: when no loaded aggregate record carries the identifier, the new
record is inserted at the front of the collection, and the aggregate
persisted afterwards has it before every previously stored record (the
individual file is written as well). -/
theorem process_discussion_inserts_new_at_front
    (discussion_number body : String) (st : Store) (ev : Event)
    (hmk : make_event_from_github_discussion_body
      ("ghdiscussion_" ++ discussion_number) body = .ok ev)
    (hno : ∀ e ∈ load_events_from_calendar_file st.aggregate,
      e.uid ≠ "ghdiscussion_" ++ discussion_number) :
    process_discussion discussion_number body st =
      (.ok (ev, true),
        ⟨some (ev :: load_events_from_calendar_file st.aggregate),
          filesInsert st.individual ("ghdiscussion_" ++ discussion_number) [ev]⟩) := by
  simp [process_discussion, hmk, findFirstWithUid_eq_none hno]

/-- C1 witness: adding the sample discussion over a store holding an
unrelated record puts the new record first. -/
theorem process_discussion_inserts_witness :
    process_discussion "7" sampleBody ⟨some [otherEvent], []⟩ =
      (.ok (sampleEvent, true),
        ⟨some (sampleEvent :: load_events_from_calendar_file (some [otherEvent])),
          filesInsert [] ("ghdiscussion_" ++ "7") [sampleEvent]⟩) :=
  process_discussion_inserts_new_at_front "7" sampleBody ⟨some [otherEvent], []⟩
    sampleEvent (by decide) (by decide)

/-- C8: when the first aggregate record carrying the identifier is not
Event-Equal to the newly built record, the new record replaces it at the
same index, so its position in the persisted aggregate ordering is
preserved while its content is replaced. -/
theorem process_discussion_replaces_in_place
    (discussion_number body : String) (st : Store) (ev ex : Event) (i : Nat)
    (hmk : make_event_from_github_discussion_body
      ("ghdiscussion_" ++ discussion_number) body = .ok ev)
    (hfind : findFirstWithUid (load_events_from_calendar_file st.aggregate)
      ("ghdiscussion_" ++ discussion_number) = some (i, ex))
    (hne : are_events_identical ex ev = false) :
    process_discussion discussion_number body st =
      (.ok (ev, true),
        ⟨some ((load_events_from_calendar_file st.aggregate).set i ev),
          filesInsert st.individual ("ghdiscussion_" ++ discussion_number) [ev]⟩) := by
  simp [process_discussion, hmk, hfind, hne]

/-- C8 witness: upserting a changed body over a two-record store rewrites
index 1 in place, keeping the unrelated record at index 0. -/
theorem process_discussion_replaces_witness :
    process_discussion "7" sampleBody ⟨some [otherEvent, sampleEventOld], []⟩ =
      (.ok (sampleEvent, true),
        ⟨some ([otherEvent, sampleEventOld].set 1 sampleEvent),
          filesInsert [] ("ghdiscussion_" ++ "7") [sampleEvent]⟩) :=
  process_discussion_replaces_in_place "7" sampleBody
    ⟨some [otherEvent, sampleEventOld], []⟩ sampleEvent sampleEventOld 1
    (by decide) (by decide) (by decide)

theorem filesErase_of_get_none {m : List (String × List Event)} {k : String}
    (h : filesGet? m k = none) : filesErase m k = m := by
  induction m with
  | nil => rfl
  | cons p rest ih =>
    obtain ⟨k', v'⟩ := p
    by_cases hk : k' = k
    · rw [filesGet?, if_pos hk] at h
      exact absurd h (by simp)
    · rw [filesGet?, if_neg hk] at h
      rw [filesErase, if_neg hk, ih h]

theorem filter_length_lt_iff_any {l : List Event} {u : String} :
    ((l.filter (fun e => e.uid != u)).length < l.length) ↔
      (l.any (fun e => e.uid == u)) = true := by
  induction l with
  | nil => simp
  | cons e es ih =>
    by_cases he : (e.uid == u) = true
    · have hne : (e.uid != u) = false := by simp [bne, he]
      simp only [List.filter_cons, hne, Bool.false_eq_true, if_false,
        List.length_cons, List.any_cons, he, Bool.true_or, iff_true]
      exact Nat.lt_succ_of_le (List.length_filter_le _ _)
    · have hb : (e.uid == u) = false := Bool.eq_false_iff.mpr he
      have hne : (e.uid != u) = true := by simp [bne, hb]
      simp only [List.filter_cons, hne, if_true, List.length_cons,
        List.any_cons, hb, Bool.false_or, Nat.add_lt_add_iff_right]
      exact ih

theorem filter_eq_self_of_not_any {l : List Event} {u : String}
    (h : (l.any (fun e => e.uid == u)) = false) :
    l.filter (fun e => e.uid != u) = l := by
  refine List.filter_eq_self.mpr ?_
  intro a ha
  rw [List.any_eq_false] at h
  simpa [bne] using h a ha

/-- C3: delete_discussion returns true iff the individual file existed (it
is removed) or the aggregate file existed and contained a matching record
(every such record is filtered out of the rewritten aggregate); a false
return leaves both store artifacts unmodified. -/
theorem delete_discussion_spec (discussion_number : String) (st : Store) :
    ((delete_discussion discussion_number st).2.individual =
      filesErase st.individual ("ghdiscussion_" ++ discussion_number)) ∧
    ((delete_discussion discussion_number st).2.aggregate =
      st.aggregate.map (fun l =>
        l.filter (fun e => e.uid != "ghdiscussion_" ++ discussion_number))) ∧
    ((delete_discussion discussion_number st).1 = true ↔
      (filesGet? st.individual ("ghdiscussion_" ++ discussion_number)).isSome = true ∨
        ∃ l, st.aggregate = some l ∧
          l.any (fun e => e.uid == "ghdiscussion_" ++ discussion_number) = true) ∧
    ((delete_discussion discussion_number st).1 = false →
      (delete_discussion discussion_number st).2 = st) := by
  obtain ⟨agg, ind⟩ := st
  rcases hg : filesGet? ind ("ghdiscussion_" ++ discussion_number) with _ | v
  · cases agg with
    | none =>
      simp [delete_discussion, hg, filesErase_of_get_none hg]
    | some l =>
      by_cases ha : (l.any (fun e => e.uid == "ghdiscussion_" ++ discussion_number)) = true
      · have hlt := filter_length_lt_iff_any.mpr ha
        simp only [List.any_eq_true, beq_iff_eq] at ha
        simp [delete_discussion, hg, hlt, filesErase_of_get_none hg, ha]
      · have hnotlt : ¬((l.filter (fun e =>
            e.uid != "ghdiscussion_" ++ discussion_number)).length < l.length) := by
          rw [filter_length_lt_iff_any]
          exact ha
        have hself := filter_eq_self_of_not_any (Bool.eq_false_iff.mpr ha)
        have hnone := List.any_eq_false.mp (Bool.eq_false_iff.mpr ha)
        simp only [beq_iff_eq] at hnone
        simp [delete_discussion, hg, hnotlt, hself, filesErase_of_get_none hg]
        exact hnone
  · cases agg with
    | none =>
      simp [delete_discussion, hg]
    | some l =>
      by_cases ha : (l.any (fun e => e.uid == "ghdiscussion_" ++ discussion_number)) = true
      · have hlt := filter_length_lt_iff_any.mpr ha
        simp [delete_discussion, hg, hlt, ha]
      · have hnotlt : ¬((l.filter (fun e =>
            e.uid != "ghdiscussion_" ++ discussion_number)).length < l.length) := by
          rw [filter_length_lt_iff_any]
          exact ha
        have hself := filter_eq_self_of_not_any (Bool.eq_false_iff.mpr ha)
        simp [delete_discussion, hg, hnotlt, ha, hself]

/-- C3 witness: deleting an identifier held only by the aggregate of a
concrete store. -/
theorem delete_discussion_spec_witness :
    ((delete_discussion "7" ⟨some [sampleEvent, otherEvent], []⟩).2.individual =
      filesErase [] ("ghdiscussion_" ++ "7")) ∧
    ((delete_discussion "7" ⟨some [sampleEvent, otherEvent], []⟩).2.aggregate =
      (some [sampleEvent, otherEvent]).map (fun l =>
        l.filter (fun e => e.uid != "ghdiscussion_" ++ "7"))) ∧
    ((delete_discussion "7" ⟨some [sampleEvent, otherEvent], []⟩).1 = true ↔
      (filesGet? [] ("ghdiscussion_" ++ "7")).isSome = true ∨
        ∃ l, (some [sampleEvent, otherEvent] : Option (List Event)) = some l ∧
          l.any (fun e => e.uid == "ghdiscussion_" ++ "7") = true) ∧
    ((delete_discussion "7" ⟨some [sampleEvent, otherEvent], []⟩).1 = false →
      (delete_discussion "7" ⟨some [sampleEvent, otherEvent], []⟩).2 =
        ⟨some [sampleEvent, otherEvent], []⟩) :=
  delete_discussion_spec "7" ⟨some [sampleEvent, otherEvent], []⟩

/-- C10: when the loaded aggregate holds more than one record with the
identifier, upsert compares against and replaces only the first matching
occurrence (the later duplicates stay in place), whereas delete removes
every occurrence from the aggregate. -/
theorem duplicate_uids_upsert_first_delete_all
    (discussion_number body : String) (st : Store) (l : List Event)
    (ev ex : Event) (i : Nat)
    (hagg : st.aggregate = some l)
    (hdup : 2 ≤ l.countP (fun e => e.uid == "ghdiscussion_" ++ discussion_number))
    (hmk : make_event_from_github_discussion_body
      ("ghdiscussion_" ++ discussion_number) body = .ok ev)
    (hfind : findFirstWithUid l ("ghdiscussion_" ++ discussion_number) =
      some (i, ex))
    (hne : are_events_identical ex ev = false) :
    (process_discussion discussion_number body st).2.aggregate =
        some (l.set i ev) ∧
      (delete_discussion discussion_number st).2.aggregate =
        some (l.filter (fun e =>
          e.uid != "ghdiscussion_" ++ discussion_number)) := by
  have ha : (l.any (fun e => e.uid == "ghdiscussion_" ++ discussion_number)) = true := by
    rw [List.any_eq_true]
    have hpos : 0 < l.countP (fun e => e.uid == "ghdiscussion_" ++ discussion_number) :=
      Nat.lt_of_lt_of_le (by decide) hdup
    rw [List.countP_pos_iff] at hpos
    exact hpos
  constructor
  · simp [process_discussion, hmk, hagg, load_events_from_calendar_file, hfind, hne]
  · have hlt := filter_length_lt_iff_any.mpr ha
    obtain ⟨agg, ind⟩ := st
    simp only [Store.aggregate] at hagg
    subst hagg
    simp [delete_discussion, hlt]

/-- C10 witness: a store whose aggregate holds the same identifier twice;
upsert rewrites index 0 only, delete drops both records. -/
theorem duplicate_uids_witness :
    (process_discussion "7" sampleBody
        ⟨some [sampleEventOld, sampleEventOld], []⟩).2.aggregate =
        some ([sampleEventOld, sampleEventOld].set 0 sampleEvent) ∧
      (delete_discussion "7" ⟨some [sampleEventOld, sampleEventOld], []⟩).2.aggregate =
        some ([sampleEventOld, sampleEventOld].filter (fun e =>
          e.uid != "ghdiscussion_" ++ "7")) :=
  duplicate_uids_upsert_first_delete_all "7" sampleBody
    ⟨some [sampleEventOld, sampleEventOld], []⟩ [sampleEventOld, sampleEventOld]
    sampleEvent sampleEventOld 0 rfl (by decide) (by decide) (by decide) (by decide)

/-- C6: on the stripped input, _parse_time tries the timed format
`YYYY-MM-DD HH:MM:SS` first, then the all-day format `YYYY-MM-DD`; the
first format that matches wins, and when neither matches it fails with an
error carrying the offending text. -/
theorem parse_time_two_format_order (time_str : String) :
    (∀ dt, parseDateTimeCh (trimCh time_str.data) = some dt →
      _parse_time time_str = .ok (dt, false)) ∧
    (parseDateTimeCh (trimCh time_str.data) = none →
      ∀ dt, parseDateCh (trimCh time_str.data) = some dt →
        _parse_time time_str = .ok (dt, true)) ∧
    (parseDateTimeCh (trimCh time_str.data) = none →
      parseDateCh (trimCh time_str.data) = none →
        _parse_time time_str =
          .error (.couldNotParseTime (String.mk (trimCh time_str.data)))) := by
  refine ⟨fun dt h => ?_, fun h1 dt h2 => ?_, fun h1 h2 => ?_⟩
  · simp [_parse_time, h]
  · simp [_parse_time, h1, h2]
  · simp [_parse_time, h1, h2]

/-- C6 witness: a timed text, an all-day text and an unparsable text, each
settled through the format-order theorem. -/
theorem parse_time_two_format_order_witness :
    _parse_time "2024-11-30 17:00:00" = .ok (⟨2024, 11, 30, 17, 0, 0⟩, false) ∧
      _parse_time "2024-11-28" = .ok (⟨2024, 11, 28, 0, 0, 0⟩, true) ∧
      _parse_time "30.11.2024" = .error (.couldNotParseTime "30.11.2024") :=
  ⟨(parse_time_two_format_order "2024-11-30 17:00:00").1 _ (by decide),
    (parse_time_two_format_order "2024-11-28").2.1 (by decide) _ (by decide),
    (parse_time_two_format_order "30.11.2024").2.2 (by decide) (by decide)⟩

/-- C7: once both time fields parse, event building fails iff the two
kinds differ; the built record is all-day with no attached zone exactly
when both were bare dates, and in the timed case both ends carry the
configured zone. -/
theorem make_event_all_day_inference
    (event_uid : String) (lines : List String) (tzinfo : String)
    (sdt edt : DT) (sk ek : Bool)
    (hmiss : firstMissing (extractFields lines) = none)
    (hname : pyHasNL ((dictGet? (extractFields lines) "Event Name").getD "") = false)
    (hloc : pyHasNL ((dictGet? (extractFields lines) "Location").getD "") = false)
    (hs : _parse_time ((dictGet? (extractFields lines) "Start Time").getD "") =
      .ok (sdt, sk))
    (he : _parse_time ((dictGet? (extractFields lines) "End Time").getD "") =
      .ok (edt, ek)) :
    makeEventCore event_uid lines tzinfo =
      (if sk = ek then
        .ok ⟨event_uid,
          (dictGet? (extractFields lines) "Event Name").getD "",
          _parse_event_description
            ((dictGet? (extractFields lines) "Event Description").getD ""),
          (dictGet? (extractFields lines) "Location").getD "",
          ⟨sdt, if sk then none else some tzinfo⟩,
          ⟨edt, if sk then none else some tzinfo⟩, sk⟩
      else .error .mixedTimeKinds) := by
  simp only [makeEventCore, hmiss, _parse_event_name, hname, Bool.false_eq_true,
    if_false, _parse_location, hloc, hs, he]
  cases sk <;> cases ek <;> rfl

/-- C7 witness: an all-day body yields an all-day record with no zone
attached to either end. -/
theorem make_event_all_day_witness :
    makeEventCore "ghdiscussion_8"
        ["### Event Name", "Retreat", "### Event Description", "Offsite.",
          "### Start Time", "2024-11-28", "### End Time", "2024-11-30",
          "### Location", "Alps"] "Europe/Zurich" =
      (if true = true then
        .ok ⟨"ghdiscussion_8",
          (dictGet? (extractFields ["### Event Name", "Retreat",
            "### Event Description", "Offsite.", "### Start Time", "2024-11-28",
            "### End Time", "2024-11-30", "### Location", "Alps"])
              "Event Name").getD "",
          _parse_event_description ((dictGet? (extractFields ["### Event Name",
            "Retreat", "### Event Description", "Offsite.", "### Start Time",
            "2024-11-28", "### End Time", "2024-11-30", "### Location", "Alps"])
              "Event Description").getD ""),
          (dictGet? (extractFields ["### Event Name", "Retreat",
            "### Event Description", "Offsite.", "### Start Time", "2024-11-28",
            "### End Time", "2024-11-30", "### Location", "Alps"])
              "Location").getD "",
          ⟨⟨2024, 11, 28, 0, 0, 0⟩, if true then none else some "Europe/Zurich"⟩,
          ⟨⟨2024, 11, 30, 0, 0, 0⟩, if true then none else some "Europe/Zurich"⟩,
          true⟩
      else .error .mixedTimeKinds) :=
  make_event_all_day_inference "ghdiscussion_8" _ "Europe/Zurich"
    ⟨2024, 11, 28, 0, 0, 0⟩ ⟨2024, 11, 30, 0, 0, 0⟩ true true
    (by decide) (by decide) (by decide) (by decide) (by decide)

theorem isPrefixOf_append_self (l t : List Char) : l.isPrefixOf (l ++ t) = true := by
  induction l with
  | nil => simp [List.isPrefixOf]
  | cons c cs ih => simp [List.isPrefixOf, ih]

theorem heading_startsWith (n : String) :
    pyStartsWith ("### " ++ n) "### " = true := by
  unfold pyStartsWith
  rw [String.data_append]
  exact isPrefixOf_append_self _ _

theorem string_mk_data (s : String) : String.mk s.data = s := rfl

theorem heading_field (n : String) (hn : pyStrip n = n) :
    pyStrip (String.mk (("### " ++ n).data.drop 4)) = n := by
  rw [String.data_append, List.drop_left' (show ("### ".data).length = 4 from rfl),
    string_mk_data]
  exact hn

theorem fieldsLoop_step_heading (line : String) (rest : List String)
    (cf : Option String) (cc : List String) (fields : List (String × String))
    (hline : pyStartsWith line "### " = true) :
    fieldsLoop (line :: rest) cf cc fields =
      fieldsLoop rest (some (pyStrip (String.mk (line.data.drop 4)))) []
        (saveField cf cc fields) := by
  simp [fieldsLoop, hline]

theorem fieldsLoop_step_skip (line : String) (rest : List String) (n : String)
    (cc : List String) (fields : List (String × String))
    (hline : pyStartsWith line "### " = false)
    (h : (decide (n ≠ "") && !(pyBlank line)) = false) :
    fieldsLoop (line :: rest) (some n) cc fields =
      fieldsLoop rest (some n) cc fields := by
  simp only [fieldsLoop, hline, h]
  simp

theorem fieldsLoop_step_acc (line : String) (rest : List String) (n : String)
    (cc : List String) (fields : List (String × String))
    (hline : pyStartsWith line "### " = false)
    (h : (decide (n ≠ "") && !(pyBlank line)) = true) :
    fieldsLoop (line :: rest) (some n) cc fields =
      fieldsLoop rest (some n) (cc ++ [line]) fields := by
  simp only [fieldsLoop, hline, h]
  simp

theorem fieldsLoop_content (c : List String) (rest : List String) (n : String)
    (fields : List (String × String))
    (hc : ∀ l ∈ c, pyStartsWith l "### " = false) :
    ∀ cc, fieldsLoop (c ++ rest) (some n) cc fields =
      fieldsLoop rest (some n)
        (cc ++ if n = "" then [] else c.filter (fun l => !(pyBlank l))) fields := by
  induction c with
  | nil => intro cc; simp
  | cons line c' ih =>
    intro cc
    have hline := hc line (List.mem_cons_self _ _)
    have ih' := ih (fun l hl => hc l (List.mem_cons_of_mem _ hl))
    by_cases hn : n = ""
    · subst hn
      rw [List.cons_append, fieldsLoop_step_skip _ _ _ _ _ hline (by simp),
        ih' cc]
      simp
    · by_cases hb : pyBlank line = true
      · rw [List.cons_append,
          fieldsLoop_step_skip _ _ _ _ _ hline (by simp [hb]), ih' cc]
        simp [List.filter_cons, hb, hn]
      · have hb' : pyBlank line = false := Bool.eq_false_iff.mpr hb
        rw [List.cons_append,
          fieldsLoop_step_acc _ _ _ _ _ hline (by simp [hb', hn]),
          ih' (cc ++ [line])]
        simp [List.filter_cons, hb', hn, List.append_assoc]

theorem fieldsLoop_render (secs : List (String × List String))
    (H : ∀ sec ∈ secs, pyStrip sec.1 = sec.1 ∧
      ∀ l ∈ sec.2, pyStartsWith l "### " = false) :
    ∀ cf cc fields, fieldsLoop (renderSections secs) cf cc fields =
      secs.foldl recordSection (saveField cf cc fields) := by
  induction secs with
  | nil => intro cf cc fields; rfl
  | cons sec rest ih =>
    intro cf cc fields
    obtain ⟨hstrip, hcontent⟩ := H sec (List.mem_cons_self _ _)
    obtain ⟨n, c⟩ := sec
    have ih' := ih (fun s hs => H s (List.mem_cons_of_mem _ hs))
    show fieldsLoop (("### " ++ n) :: (c ++ renderSections rest)) cf cc fields = _
    rw [fieldsLoop_step_heading _ _ _ _ _ (heading_startsWith n),
      heading_field n hstrip, fieldsLoop_content c _ n _ hcontent [], ih',
      List.foldl_cons]
    congr 1
    by_cases hn : n = ""
    · subst hn; simp [saveField, recordSection]
    · simp [saveField, recordSection, hn, sectionValue]

/-- C5 counterexample: on the two-line body `### ` then `x`, the heading's
trimmed trailing text is the empty name, so the claim predicts a section
named the empty string whose value is `x`; the code's truthiness guard
drops empty-named sections entirely and records no field at all. -/
theorem extract_fields_empty_heading_counterexample :
    ¬(dictGet? (extractFields ["### ", "x"]) "" = some "x") ∧
      extractFields ["### ", "x"] = [] := by
  decide

/-- C5 (amended): a heading line whose trimmed trailing text is nonempty
starts a named section whose value — the non-blank lines up to the next
heading, blank lines dropped, joined with single newlines and trimmed — is
recorded under the name, a later section with the same name overwriting an
earlier one; a heading line with empty trailing text closes the current
section and records nothing, its following lines being discarded; and
whenever one of the five required sections is absent or empty after
trimming, parsing fails with an error naming the first such field. -/
theorem extract_fields_sections_and_required :
    (∀ secs : List (String × List String),
      (∀ sec ∈ secs, pyStrip sec.1 = sec.1 ∧
        ∀ l ∈ sec.2, pyStartsWith l "### " = false) →
      extractFields (renderSections secs) = secs.foldl recordSection []) ∧
    (∀ event_uid lines tzinfo f,
      firstMissing (extractFields lines) = some f →
      makeEventCore event_uid lines tzinfo = .error (.missingRequiredField f)) := by
  constructor
  · intro secs H
    exact fieldsLoop_render secs H none [] []
  · intro event_uid lines tzinfo f h
    simp only [makeEventCore, h]
    rfl

/-- C5 witness: a rendered body with a duplicate name, an empty-named
heading and a blank content line, plus a body missing a required field. -/
theorem extract_fields_sections_witness :
    extractFields (renderSections
        [("Event Name", ["A"]), ("", ["dropped"]), ("Event Name", ["B", "", "C"])]) =
      [("Event Name", ["A"]), ("", ["dropped"]),
        ("Event Name", ["B", "", "C"])].foldl recordSection [] ∧
      makeEventCore "u" ["### Event Name", "A"] "Europe/Zurich" =
        .error (.missingRequiredField "Event Description") :=
  ⟨extract_fields_sections_and_required.1 _ (by decide),
    extract_fields_sections_and_required.2 "u" _ "Europe/Zurich" _ (by decide)⟩

theorem findIdxO_first {α : Type} (p : α → Bool) (pre rest : List α) (x : α)
    (hpre : ∀ l ∈ pre, p l = false) (hx : p x = true) :
    findIdxO p (pre ++ x :: rest) = some pre.length := by
  induction pre with
  | nil => simp [findIdxO, hx]
  | cons a as ih =>
    have ha := hpre a (List.mem_cons_self _ _)
    have ih' := ih (fun l hl => hpre l (List.mem_cons_of_mem _ hl))
    simp only [List.cons_append, findIdxO, ha, Bool.false_eq_true, if_false,
      List.append_eq, ih', Option.map_some', List.length_cons]

theorem drop_length_succ {α : Type} (pre : List α) (x : α) (R : List α) :
    (pre ++ x :: R).drop (pre.length + 1) = R := by
  rw [show pre ++ x :: R = (pre ++ [x]) ++ R by simp]
  exact List.drop_left' (by simp)

theorem findToIdx_at (cs : List Char) (k : Nat)
    (hb : ∀ p, p < k → lowerCh ((cs.drop p).take 4) ≠ " to ".data)
    (ha : lowerCh ((cs.drop k).take 4) = " to ".data) :
    findToIdx cs = some k := by
  induction cs generalizing k with
  | nil =>
    rw [List.drop_nil, List.take_nil] at ha
    exact absurd ha (by decide)
  | cons c cs' ih =>
    cases k with
    | zero =>
      rw [List.drop_zero] at ha
      simp only [findToIdx]
      rw [if_pos ha]
    | succ k' =>
      have h0 := hb 0 (Nat.succ_pos k')
      rw [List.drop_zero] at h0
      have hb' : ∀ p, p < k' → lowerCh ((cs'.drop p).take 4) ≠ " to ".data := by
        intro p hp
        have hp1 := hb (p + 1) (Nat.succ_lt_succ hp)
        rwa [List.drop_succ_cons] at hp1
      have ha' : lowerCh ((cs'.drop k').take 4) = " to ".data := by
        rwa [List.drop_succ_cons] at ha
      simp only [findToIdx, h0, if_false, ih k' hb' ha', Option.map_some']

/-- C4 (modelled from the spec, issue dialect): for each required section
name the value is the joined, trimmed text strictly between the first two
fence lines after the exact heading line; and the Time field is parsed as a
case-insensitive FROM-TO range whose two ends are parsed independently with
the single-string parser and must resolve to the same kind — a timed/all-day
mixture fails. -/
theorem issue_dialect_sections_and_range :
    (∀ (pre mid inner post : List String) (name f1 f2 : String),
      (∀ l ∈ pre, l ≠ "### " ++ name) →
      (∀ l ∈ mid, pyStartsWith l "```" = false) →
      pyStartsWith f1 "```" = true →
      (∀ l ∈ inner, pyStartsWith l "```" = false) →
      pyStartsWith f2 "```" = true →
      extractIssueSection
          (pre ++ ("### " ++ name) :: (mid ++ f1 :: (inner ++ f2 :: post))) name =
        .ok (pyStrip (pyJoinNL inner))) ∧
    (∀ (l r : String) (ldt rdt : DT) (lk rk : Bool),
      trimCh ("FROM " ++ l ++ " TO " ++ r).data = ("FROM " ++ l ++ " TO " ++ r).data →
      (∀ p, p < l.data.length →
        lowerCh (((l.data ++ (" TO ".data ++ r.data)).drop p).take 4) ≠ " to ".data) →
      _parse_time l = .ok (ldt, lk) →
      _parse_time r = .ok (rdt, rk) →
      parseTimeRange ("FROM " ++ l ++ " TO " ++ r) =
        (if lk = rk then .ok (ldt, rdt, lk) else .error .mixedTimeKinds)) := by
  constructor
  · intro pre mid inner post name f1 f2 hpre hmid hf1 hinner hf2
    have hpre' : ∀ l ∈ pre, (fun s => s == "### " ++ name) l = false := by
      intro l hl
      exact beq_eq_false_iff_ne.mpr (hpre l hl)
    simp only [extractIssueSection,
      findIdxO_first _ pre (mid ++ f1 :: (inner ++ f2 :: post)) ("### " ++ name)
        hpre' (by simp),
      drop_length_succ,
      findIdxO_first _ mid (inner ++ f2 :: post) f1 hmid hf1,
      findIdxO_first _ inner post f2 hinner hf2,
      List.take_left']
  · intro l r ldt rdt lk rk htrim hno hl hr
    have hdata : ("FROM " ++ l ++ " TO " ++ r).data =
        "FROM ".data ++ (l.data ++ (" TO ".data ++ r.data)) := by
      simp [List.append_assoc]
    have htake5 : ("FROM ".data ++ (l.data ++ (" TO ".data ++ r.data))).take 5 =
        "FROM ".data := List.take_left' rfl
    have hdrop5 : ("FROM ".data ++ (l.data ++ (" TO ".data ++ r.data))).drop 5 =
        l.data ++ (" TO ".data ++ r.data) := List.drop_left' rfl
    have hfind : findToIdx (l.data ++ (" TO ".data ++ r.data)) =
        some l.data.length := by
      apply findToIdx_at _ _ hno
      rw [List.drop_left, List.take_left' (show (" TO ".data).length = 4 from rfl)]
      decide
    have htakeL : (l.data ++ (" TO ".data ++ r.data)).take l.data.length =
        l.data := List.take_left _ _
    have hdropR : (l.data ++ (" TO ".data ++ r.data)).drop (l.data.length + 4) =
        r.data := by
      rw [show l.data ++ (" TO ".data ++ r.data) =
        (l.data ++ " TO ".data) ++ r.data by simp [List.append_assoc]]
      exact List.drop_left' (by simp)
    rw [hdata] at htrim
    simp only [parseTimeRange, hdata, htrim, htake5, hdrop5]
    rw [if_pos (show lowerCh "FROM ".data = "from ".data by decide)]
    simp only [hfind, htakeL, hdropR, string_mk_data, hl, hr]
    cases lk <;> cases rk <;> rfl

/-- C4 witness: a concrete issue body block and a concrete all-day range,
settled through the issue-dialect theorem. -/
theorem issue_dialect_witness :
    extractIssueSection
        (["Intro"] ++ ("### " ++ "Time") ::
          ([] ++ "```" :: (["FROM 2024-11-28 TO 2024-11-30"] ++ "```" :: []))) "Time" =
      .ok (pyStrip (pyJoinNL ["FROM 2024-11-28 TO 2024-11-30"])) ∧
    parseTimeRange ("FROM " ++ "2024-11-28" ++ " TO " ++ "2024-11-30") =
      (if true = true then
        .ok (⟨2024, 11, 28, 0, 0, 0⟩, ⟨2024, 11, 30, 0, 0, 0⟩, true)
      else .error .mixedTimeKinds) :=
  ⟨issue_dialect_sections_and_range.1 ["Intro"] [] ["FROM 2024-11-28 TO 2024-11-30"]
      [] "Time" "```" "```" (by decide) (by decide) (by decide) (by decide) (by decide),
    issue_dialect_sections_and_range.2 "2024-11-28" "2024-11-30"
      ⟨2024, 11, 28, 0, 0, 0⟩ ⟨2024, 11, 30, 0, 0, 0⟩ true true
      (by decide) (by decide) (by decide) (by decide)⟩
